import Mathlib

/-!
Verification of the playbracket data model (`playbracket/models.py`).

The Django models are shallowly embedded: model instances become plain
structures, nullable foreign keys become `Option`, many-to-many relations
become lists of related rows, querysets become lists, and the reverse
relations (`Event.matches`, and the match table used by the reverse
accessors `player.winners` / `player.losers`) are passed explicitly.
Dates are modelled as natural-number day counts. Python floats arising in
`hit_ratio` are modelled by exact rationals; all values reached in this
development are exactly representable. `ValidationError` raised on the
save path is modelled with `Except String`.
-/

namespace PlayBracket

/-- `Player` (models.py line 65): a participant identified by a unique name. -/
structure Player where
  name : String
deriving DecidableEq, Repr

/-- `Sport` (line 87): a named category with a many-to-many player roster. -/
structure Sport where
  name : String
  players : List Player
deriving DecidableEq, Repr

/-- `League` (line 98): a named grouping whose `sport` foreign key is nullable
(`blank=True, null=True`). The `admins` relation plays no role in the
properties below and is omitted. -/
structure League where
  name : String
  sport : Option Sport
deriving DecidableEq, Repr

/-- `Match` (line 110): one contest. `winners` and `losers` are the resolved
many-to-many rows (each player at most once per relation), `league` is the
nullable foreign key. The `event` foreign key is represented from the event
side (`Event.matches`), mirroring the reverse relation the code queries. -/
structure Match where
  date : Nat
  cleared : Bool
  winners : List Player
  winner_score : Option Int
  losers : List Player
  loser_score : Option Int
  league : Option League
deriving DecidableEq, Repr

/-- `Event` (line 24): a place, a date, and the matches whose `event` foreign
key points at it (the reverse relation `self.matches`). -/
structure Event where
  place : Option String
  date : Nat
  «matches» : List Match
deriving DecidableEq, Repr

/-- Result record returned by `Event.player_result` (lines 9-14). -/
structure PlayerEventResults where
  name : String
  won : Nat
  lost : Nat
  total : Nat
  win_ratio : Rat
deriving DecidableEq, Repr

/-- `hit_ratio` (lines 17-21): `if not total: return 0` then
`(hit / total) * 100`. For an integer, Python truthiness `not total` is
`total == 0`; true division is modelled by exact rational division. -/
def hit_ratio (hit total : Int) : Rat :=
  if total = 0 then 0 else ((hit : Rat) / (total : Rat)) * 100

/-- `Match.players` (lines 125-126): the queryset union
`self.winners.all() | self.losers.all()`, which returns distinct rows. -/
def Match.players (m : Match) : List Player :=
  (m.winners ++ m.losers).dedup

/-- `Event.players` (lines 36-37): the Python set built from every player of
every match of the event. -/
def Event.players (e : Event) : List Player :=
  (e.«matches».flatMap Match.players).dedup

/-- `Event.player_result` (lines 42-54): `won` and `lost` are the counts of
the event matches containing the player in `winners` (resp. `losers`); the
record carries `total = won + lost` and `win_ratio = hit_ratio won total`.
The misspelled local `win_ration` of the source is kept. -/
def Event.player_result (e : Event) (player : Player) : PlayerEventResults :=
  let won : Nat := (e.«matches».filter (fun m => decide (player ∈ m.winners))).length
  let lost : Nat := (e.«matches».filter (fun m => decide (player ∈ m.losers))).length
  let win_ration : Rat := hit_ratio won (won + lost)
  { name := player.name, won := won, lost := lost, total := won + lost,
    win_ratio := win_ration }

/-- `Event.ranking` (lines 56-62): one `player_result` per element of
`self.players()`, sorted by `win_ratio` descending (Python `sorted` with
`reverse=True` is a stable merge sort). -/
def Event.ranking (e : Event) : List PlayerEventResults :=
  ((e.players).map (e.player_result)).mergeSort
    (fun a b => decide (b.win_ratio ≤ a.win_ratio))

/-- The Django lookup `league__sport=sport` (lines 75-76, 81-82): the join
keeps a match only when its `league` is non-null and that league points at
the given sport. -/
def leagueSportIs (sport : Sport) (m : Match) : Bool :=
  match m.league with
  | none => false
  | some l => decide (l.sport = some sport)

/-- `Player.sport_win_ratio` (lines 74-78): counts over the reverse
relations `self.winners` / `self.losers` (all matches listing the player as
winner resp. loser), filtered by `league__sport=sport`. The ambient match
table is passed explicitly. -/
def Player.sport_win_ratio (db : List Match) (p : Player) (sport : Sport) : Rat :=
  let won := (db.filter (fun m => decide (p ∈ m.winners) && leagueSportIs sport m)).length
  let lost := (db.filter (fun m => decide (p ∈ m.losers) && leagueSportIs sport m)).length
  hit_ratio won (won + lost)

/-- `Player.league_win_ratio` (lines 80-84): the same counts filtered by
`league=league`. -/
def Player.league_win_ratio (db : List Match) (p : Player) (league : League) : Rat :=
  let won := (db.filter (fun m => decide (p ∈ m.winners) && decide (m.league = some league))).length
  let lost := (db.filter (fun m => decide (p ∈ m.losers) && decide (m.league = some league))).length
  hit_ratio won (won + lost)

/-- `League.players` (lines 106-107): `self.sport.players.all()`. The
attribute access on a null `sport` fails (AttributeError), modelled by
`none`; the successful dereference returns the full sport roster. -/
def League.players (l : League) : Option (List Player) :=
  match l.sport with
  | none => none
  | some s => some s.players

/-- First comprehension of `Match.validate_winners_losers_fields`
(line 141): `[True for winner in self.winners.all() if winner in self.losers.all()]`. -/
def Match.winner_in_loser (m : Match) : List Bool :=
  (m.winners.filter (fun winner => decide (winner ∈ m.losers))).map (fun _ => true)

/-- Second comprehension (line 142):
`[True for loser in self.losers.all() if loser in self.winners.all()]`. -/
def Match.loser_in_winner (m : Match) : List Bool :=
  (m.losers.filter (fun loser => decide (loser ∈ m.winners))).map (fun _ => true)

/-- Message of the first raise branch (line 145). -/
def winnerInLosersMsg : String := "You can\x27t have a winner in the losers field"

/-- Message of the second raise branch (line 148). -/
def loserInWinnersMsg : String := "You can\x27t have a loser in the winners field"

/-- `Match.validate_winners_losers_fields` (lines 137-148): both
comprehensions are computed, then the winner-in-loser branch is tested
first; a non-empty list is truthy and raises. The method mutates nothing,
so success returns the match unchanged. -/
def Match.validate_winners_losers_fields (m : Match) : Except String Match :=
  let winner_in_loser := m.winner_in_loser
  let loser_in_winner := m.loser_in_winner
  if winner_in_loser ≠ [] then Except.error winnerInLosersMsg
  else if loser_in_winner ≠ [] then Except.error loserInWinnersMsg
  else Except.ok m

/-- `Match.save` (lines 150-152): validate, then delegate to the framework
save, which persists the row (modelled as appending to the table). A raised
ValidationError propagates and nothing is persisted. -/
def Match.save (db : List Match) (m : Match) : Except String (List Match) :=
  match m.validate_winners_losers_fields with
  | Except.error e => Except.error e
  | Except.ok m2 => Except.ok (db ++ [m2])

/-- The module-level state created when `models.py` is loaded: each
`models.DateField(default=date.today())` CALLS `date.today()` once, at
class-definition time, so the stored default is the load-day constant. -/
structure ModelsModule where
  event_date_default : Nat
  match_date_default : Nat
deriving DecidableEq, Repr

/-- Loading `models.py` on day `load_today` evaluates `date.today()` in the
field declarations of `Event` (line 26) and `Match` (line 111). -/
def loadModels (load_today : Nat) : ModelsModule :=
  { event_date_default := load_today, match_date_default := load_today }

/-- Creating a `Match` with no explicit date on day `_creation_today`: the
field takes the module-level default value, not the current day. -/
def createMatchWithDefaultDate (mm : ModelsModule) (_creation_today : Nat) : Match :=
  { date := mm.match_date_default, cleared := false, winners := [],
    winner_score := none, losers := [], loser_score := none, league := none }

/-- Creating an `Event` with no explicit date on day `_creation_today`. -/
def createEventWithDefaultDate (mm : ModelsModule) (_creation_today : Nat) : Event :=
  { place := none, date := mm.event_date_default, «matches» := [] }

/-- Concrete fixtures used by the witness theorems. -/
def A0 : Player := { name := "Alice" }

def B0 : Player := { name := "Bob" }

def S0 : Sport := { name := "Chess", players := [A0, B0] }

def L0 : League := { name := "City", sport := some S0 }

def L1 : League := { name := "Free", sport := none }

/-- A valid match: Alice beat Bob in league `L0`. -/
def M0 : Match :=
  { date := 0, cleared := false, winners := [A0], winner_score := some 1,
    losers := [B0], loser_score := some 0, league := some L0 }

/-- An invalid match: Alice appears both as winner and as loser. -/
def M1 : Match :=
  { date := 0, cleared := false, winners := [A0], winner_score := none,
    losers := [A0, B0], loser_score := none, league := none }

/-- An event containing the single match `M0`. -/
def E0 : Event := { place := none, date := 0, «matches» := [M0] }

/-! ### Helper lemmas -/

/-- The first comprehension is non-empty exactly when some winner is also a
loser. -/
theorem winner_in_loser_ne_nil_iff (m : Match) :
    m.winner_in_loser ≠ [] ↔ ∃ p ∈ m.winners, p ∈ m.losers := by
  simp only [Match.winner_in_loser, ne_eq, List.map_eq_nil_iff,
    List.filter_eq_nil_iff, decide_eq_true_eq, not_forall]
  push_neg
  simp

/-- The second comprehension is non-empty exactly when some loser is also a
winner. -/
theorem loser_in_winner_ne_nil_iff (m : Match) :
    m.loser_in_winner ≠ [] ↔ ∃ p ∈ m.losers, p ∈ m.winners := by
  simp only [Match.loser_in_winner, ne_eq, List.map_eq_nil_iff,
    List.filter_eq_nil_iff, decide_eq_true_eq, not_forall]
  push_neg
  simp

/-- Validation written as a chain of conditionals. -/
theorem validate_eq_ite (m : Match) :
    m.validate_winners_losers_fields =
      if m.winner_in_loser ≠ [] then Except.error winnerInLosersMsg
      else if m.loser_in_winner ≠ [] then Except.error loserInWinnersMsg
      else Except.ok m := rfl

/-- A match whose winners and losers overlap fails validation with the
first message. -/
theorem validate_of_overlap (m : Match) (h : ∃ p ∈ m.winners, p ∈ m.losers) :
    m.validate_winners_losers_fields = Except.error winnerInLosersMsg := by
  rw [validate_eq_ite, if_pos ((winner_in_loser_ne_nil_iff m).mpr h)]

/-- A match with disjoint winners and losers passes validation, returning
the match unchanged. -/
theorem validate_of_disjoint (m : Match) (h : ∀ p ∈ m.winners, p ∉ m.losers) :
    m.validate_winners_losers_fields = Except.ok m := by
  have h1 : ¬ m.winner_in_loser ≠ [] := by
    rw [winner_in_loser_ne_nil_iff]
    push_neg
    exact h
  have h2 : ¬ m.loser_in_winner ≠ [] := by
    rw [loser_in_winner_ne_nil_iff]
    push_neg
    exact fun p hl hw => h p hw hl
  rw [validate_eq_ite, if_neg h1, if_neg h2]

/-- Membership in a match roster. -/
theorem mem_match_players (m : Match) (p : Player) :
    p ∈ m.players ↔ p ∈ m.winners ∨ p ∈ m.losers := by
  simp [Match.players]

/-- Membership in an event roster. -/
theorem mem_event_players (e : Event) (p : Player) :
    p ∈ e.players ↔ ∃ m ∈ e.«matches», p ∈ m.players := by
  simp [Event.players]

/-! ### Claims -/

/-- C2: `hit_ratio` returns 0 whenever `total = 0`, and otherwise the
unclamped percentage `(hit / total) * 100`; in particular the five listed
evaluations hold. -/
theorem C2_hit_ratio_total_zero_guard :
    (∀ hit total : Int, total = 0 → hit_ratio hit total = 0) ∧
    (∀ hit total : Int, total ≠ 0 →
      hit_ratio hit total = ((hit : Rat) / (total : Rat)) * 100) ∧
    hit_ratio 0 0 = 0 ∧ hit_ratio 3 0 = 0 ∧
    hit_ratio 1 2 = 50 ∧ hit_ratio 2 2 = 100 ∧ hit_ratio 0 5 = 0 := by
  refine ⟨fun hit total h => ?_, fun hit total h => ?_, ?_, ?_, ?_, ?_, ?_⟩
  · simp [hit_ratio, h]
  · simp [hit_ratio, h]
  all_goals norm_num [hit_ratio]

/-- Witness for C2 at concrete inputs. -/
theorem C2_hit_ratio_total_zero_guard_witness :
    hit_ratio 7 0 = 0 ∧ hit_ratio 1 4 = ((1 : Rat) / (4 : Rat)) * 100 := by
  exact ⟨C2_hit_ratio_total_zero_guard.1 7 0 rfl,
    C2_hit_ratio_total_zero_guard.2.1 1 4 (by norm_num)⟩

/-- C5: a league whose sport is `s` exposes exactly the full roster of `s`;
the result does not depend on any match data, which `League.players` never
consults. -/
theorem C5_league_players_roster (l : League) (s : Sport)
    (h : l.sport = some s) : l.players = some s.players := by
  simp [League.players, h]

/-- Witness for C5: the fixture league `L0` of sport `S0`. -/
theorem C5_league_players_roster_witness : L0.players = some S0.players :=
  C5_league_players_roster L0 S0 rfl

/-- C10: on a league whose `sport` is null, `players` fails by
dereferencing the null reference; it never returns a roster, in particular
not an empty one. -/
theorem C10_league_players_null_sport (l : League) (h : l.sport = none) :
    l.players = none ∧ ∀ roster : List Player, l.players ≠ some roster := by
  have hn : l.players = none := by simp [League.players, h]
  exact ⟨hn, fun roster hr => by rw [hn] at hr; cases hr⟩

/-- Witness for C10: the fixture league `L1` with no sport. -/
theorem C10_league_players_null_sport_witness :
    L1.players = none ∧ L1.players ≠ some [] :=
  ⟨(C10_league_players_null_sport L1 rfl).1,
    (C10_league_players_null_sport L1 rfl).2 []⟩

/-- C8 (code bug): the `date.today()` in each DateField declaration is
evaluated once when the module is loaded, so a Match or Event created on a
later day still gets the load day as its default date, not its creation
day: with the module loaded on day 0 and the object created on day 1, the
stored date is 0 ≠ 1. -/
theorem C8_date_default_is_load_day :
    (createMatchWithDefaultDate (loadModels 0) 1).date = 0 ∧
    (createEventWithDefaultDate (loadModels 0) 1).date = 0 ∧
    (0 : Nat) ≠ 1 :=
  ⟨rfl, rfl, by decide⟩

/-- C1: saving a match whose winners and losers intersect raises a
ValidationError and persists nothing; saving a match with disjoint sets
(including empty ones) succeeds and appends the row to the table. -/
theorem C1_save_validates_disjointness (db : List Match) (m : Match) :
    ((∃ p ∈ m.winners, p ∈ m.losers) →
      Match.save db m = Except.error winnerInLosersMsg ∧
      ∀ db2 : List Match, Match.save db m ≠ Except.ok db2) ∧
    ((∀ p ∈ m.winners, p ∉ m.losers) →
      Match.save db m = Except.ok (db ++ [m])) := by
  constructor
  · intro h
    have hv := validate_of_overlap m h
    refine ⟨by simp [Match.save, hv], fun db2 hc => ?_⟩
    simp [Match.save, hv] at hc
  · intro h
    simp [Match.save, validate_of_disjoint m h]

/-- Witness for C1: the overlapping fixture `M1` is rejected, the valid
fixture `M0` is persisted. -/
theorem C1_save_validates_disjointness_witness :
    Match.save [] M1 = Except.error winnerInLosersMsg ∧
    Match.save [] M0 = Except.ok ([] ++ [M0]) :=
  ⟨((C1_save_validates_disjointness [] M1).1 (by decide)).1,
    (C1_save_validates_disjointness [] M0).2 (by decide)⟩

/-- C7: on overlap, validation raises the error of the first direction
checked (winner-in-loser, whose branch precedes loser-in-winner), the two
direction messages are distinct, and validation never alters the match: a
successful run returns it unchanged. -/
theorem C7_validation_first_direction_no_mutation (m : Match) :
    ((∃ p ∈ m.winners, p ∈ m.losers) →
      m.validate_winners_losers_fields = Except.error winnerInLosersMsg) ∧
    winnerInLosersMsg ≠ loserInWinnersMsg ∧
    (∀ m2 : Match, m.validate_winners_losers_fields = Except.ok m2 → m2 = m) := by
  refine ⟨validate_of_overlap m, by decide, fun m2 h => ?_⟩
  rw [validate_eq_ite] at h
  by_cases h1 : m.winner_in_loser ≠ []
  · rw [if_pos h1] at h
    cases h
  · rw [if_neg h1] at h
    by_cases h2 : m.loser_in_winner ≠ []
    · rw [if_pos h2] at h
      cases h
    · rw [if_neg h2] at h
      cases h
      rfl

/-- Witness for C7 at the overlapping fixture `M1` and the valid fixture
`M0`. -/
theorem C7_validation_first_direction_no_mutation_witness :
    M1.validate_winners_losers_fields = Except.error winnerInLosersMsg ∧
    M0 = M0 :=
  ⟨(C7_validation_first_direction_no_mutation M1).1 (by decide),
    (C7_validation_first_direction_no_mutation M0).2.2 M0
      (validate_of_disjoint M0 (by decide))⟩

/-- C9: the winner-in-loser comprehension is non-empty exactly when the
loser-in-winner one is (both reduce to a non-empty intersection), so every
validation failure carries the first message and the second raise branch is
unreachable. -/
theorem C9_second_branch_unreachable (m : Match) :
    (m.winner_in_loser ≠ [] ↔ m.loser_in_winner ≠ []) ∧
    (∀ msg : String, m.validate_winners_losers_fields = Except.error msg →
      msg = winnerInLosersMsg) := by
  have hiff : m.winner_in_loser ≠ [] ↔ m.loser_in_winner ≠ [] := by
    rw [winner_in_loser_ne_nil_iff, loser_in_winner_ne_nil_iff]
    constructor
    · rintro ⟨p, hw, hl⟩
      exact ⟨p, hl, hw⟩
    · rintro ⟨p, hl, hw⟩
      exact ⟨p, hw, hl⟩
  refine ⟨hiff, fun msg h => ?_⟩
  rw [validate_eq_ite] at h
  by_cases h1 : m.winner_in_loser ≠ []
  · rw [if_pos h1] at h
    cases h
    rfl
  · have h2 : ¬ m.loser_in_winner ≠ [] := fun hc => h1 (hiff.mpr hc)
    rw [if_neg h1, if_neg h2] at h
    cases h

/-- Witness for C9 at the overlapping fixture `M1`. -/
theorem C9_second_branch_unreachable_witness :
    (M1.winner_in_loser ≠ [] ↔ M1.loser_in_winner ≠ []) ∧
    ((Except.error winnerInLosersMsg : Except String Match) =
        Except.error winnerInLosersMsg) := by
  refine ⟨(C9_second_branch_unreachable M1).1, ?_⟩
  have := (C9_second_branch_unreachable M1).2 winnerInLosersMsg
    (validate_of_overlap M1 (by decide))
  rfl

/-- C4: an event roster holds exactly the players appearing in some match
of the event, a match roster is the union of its winners and losers, and
the event roster lists each distinct player exactly once. -/
theorem C4_event_players_union (e : Event) :
    (∀ p : Player, p ∈ e.players ↔ ∃ m ∈ e.«matches», p ∈ m.players) ∧
    (∀ (m : Match) (p : Player), p ∈ m.players ↔ p ∈ m.winners ∨ p ∈ m.losers) ∧
    (e.players).Nodup := by
  refine ⟨mem_event_players e, mem_match_players, ?_⟩
  simp only [Event.players]
  exact List.nodup_dedup _

/-- Witness for C4 at the fixture event `E0`. -/
theorem C4_event_players_union_witness :
    (A0 ∈ E0.players ↔ ∃ m ∈ E0.«matches», A0 ∈ m.players) ∧
    (E0.players).Nodup :=
  ⟨(C4_event_players_union E0).1 A0, (C4_event_players_union E0).2.2⟩

/-- C6: `sport_win_ratio` is `hit_ratio won (won + lost)` where `won`
counts the matches listing the player as a winner whose league is set and
points at the given sport, `lost` the analogous losses; `league_win_ratio`
is the same with the counts restricted to one league. -/
theorem C6_player_win_ratios (db : List Match) (p : Player) (s : Sport)
    (lg : League) :
    Player.sport_win_ratio db p s =
      hit_ratio
        (db.countP (fun m =>
          decide (p ∈ m.winners ∧ (m.league.bind fun l2 => l2.sport) = some s)))
        ((db.countP (fun m =>
          decide (p ∈ m.winners ∧ (m.league.bind fun l2 => l2.sport) = some s))) +
         (db.countP (fun m =>
          decide (p ∈ m.losers ∧ (m.league.bind fun l2 => l2.sport) = some s)))) ∧
    Player.league_win_ratio db p lg =
      hit_ratio
        (db.countP (fun m => decide (p ∈ m.winners ∧ m.league = some lg)))
        ((db.countP (fun m => decide (p ∈ m.winners ∧ m.league = some lg))) +
         (db.countP (fun m => decide (p ∈ m.losers ∧ m.league = some lg)))) := by
  have hsport : ∀ m : Match,
      leagueSportIs s m = decide ((m.league.bind fun l2 => l2.sport) = some s) := by
    intro m
    cases h : m.league <;> simp [leagueSportIs, h]
  constructor
  · have hw : (fun m => decide (p ∈ m.winners) && leagueSportIs s m)
        = (fun m =>
            decide (p ∈ m.winners ∧ (m.league.bind fun l2 => l2.sport) = some s)) := by
      funext m
      rw [hsport m, ← Bool.decide_and]
    have hl : (fun m => decide (p ∈ m.losers) && leagueSportIs s m)
        = (fun m =>
            decide (p ∈ m.losers ∧ (m.league.bind fun l2 => l2.sport) = some s)) := by
      funext m
      rw [hsport m, ← Bool.decide_and]
    simp only [Player.sport_win_ratio, hw, hl, List.countP_eq_length_filter]
  · have hw : (fun (m : Match) => decide (p ∈ m.winners) && decide (m.league = some lg))
        = (fun (m : Match) => decide (p ∈ m.winners ∧ m.league = some lg)) := by
      funext m
      rw [← Bool.decide_and]
    have hl : (fun (m : Match) => decide (p ∈ m.losers) && decide (m.league = some lg))
        = (fun (m : Match) => decide (p ∈ m.losers ∧ m.league = some lg)) := by
      funext m
      rw [← Bool.decide_and]
    simp only [Player.league_win_ratio, hw, hl, List.countP_eq_length_filter]

/-- C3: the ranking is a permutation of one `player_result` per distinct
player of the event (the roster is duplicate-free and holds exactly the
players of the event matches), `won` / `lost` count the event matches
listing the player among the winners / losers, every entry satisfies
`total = won + lost` and `win_ratio = hit_ratio won total`, and the list is
sorted non-increasing in `win_ratio`. -/
theorem C3_event_ranking (e : Event) :
    (e.ranking).Perm ((e.players).map (e.player_result)) ∧
    (e.players).Nodup ∧
    (∀ p : Player, p ∈ e.players ↔
      ∃ m ∈ e.«matches», p ∈ m.winners ∨ p ∈ m.losers) ∧
    (∀ p : Player,
      (e.player_result p).won =
        (e.«matches».filter (fun m => decide (p ∈ m.winners))).length ∧
      (e.player_result p).lost =
        (e.«matches».filter (fun m => decide (p ∈ m.losers))).length ∧
      (e.player_result p).name = p.name) ∧
    (∀ r ∈ e.ranking, r.total = r.won + r.lost ∧
      r.win_ratio = hit_ratio r.won r.total) ∧
    (e.ranking).Sorted (fun a b => b.win_ratio ≤ a.win_ratio) := by
  refine ⟨?_, ?_, ?_, ?_, ?_, ?_⟩
  · simp only [Event.ranking]
    exact List.mergeSort_perm _ _
  · simp only [Event.players]
    exact List.nodup_dedup _
  · intro p
    rw [mem_event_players]
    constructor
    · rintro ⟨m, hm, hp⟩
      exact ⟨m, hm, (mem_match_players m p).mp hp⟩
    · rintro ⟨m, hm, hp⟩
      exact ⟨m, hm, (mem_match_players m p).mpr hp⟩
  · exact fun p => ⟨rfl, rfl, rfl⟩
  · intro r hr
    have hr2 : r ∈ (e.players).map (e.player_result) := by
      have hperm : (e.ranking).Perm ((e.players).map (e.player_result)) := by
        simp only [Event.ranking]
        exact List.mergeSort_perm _ _
      exact hperm.mem_iff.mp hr
    rcases List.mem_map.mp hr2 with ⟨p, _, rfl⟩
    exact ⟨rfl, rfl⟩
  · have hpair := @List.sorted_mergeSort PlayerEventResults
      (fun a b => decide (b.win_ratio ≤ a.win_ratio))
      (fun a b c hab hbc => by
        simp only [decide_eq_true_eq] at *
        exact le_trans hbc hab)
      (fun a b => by
        simp only [Bool.or_eq_true, decide_eq_true_eq]
        exact le_total b.win_ratio a.win_ratio)
      ((e.players).map (e.player_result))
    simp only [Event.ranking]
    exact hpair.imp (fun h => of_decide_eq_true h)

/-- Witness for C3 at the fixture event `E0` and its player `A0`. -/
theorem C3_event_ranking_witness :
    ((E0.player_result A0).total =
        (E0.player_result A0).won + (E0.player_result A0).lost ∧
      (E0.player_result A0).win_ratio =
        hit_ratio (E0.player_result A0).won (E0.player_result A0).total) ∧
    A0 ∈ E0.players ∧
    (E0.ranking).Sorted (fun a b => b.win_ratio ≤ a.win_ratio) := by
  have h := C3_event_ranking E0
  have hmem : E0.player_result A0 ∈ E0.ranking := by
    have hperm := List.mergeSort_perm ((E0.players).map (E0.player_result))
      (fun a b => decide (b.win_ratio ≤ a.win_ratio))
    have hin : E0.player_result A0 ∈ (E0.players).map (E0.player_result) :=
      List.mem_map.mpr ⟨A0, by decide, rfl⟩
    simp only [Event.ranking]
    exact hperm.mem_iff.mpr hin
  exact ⟨h.2.2.2.2.1 _ hmem,
    (h.2.2.1 A0).mpr ⟨M0, by decide, Or.inl (by decide)⟩,
    h.2.2.2.2.2⟩

end PlayBracket
